import Mathlib

/-!
Verification of the peptide-prediction core algorithms.

The definitions below are a shallow embedding of `backend/auxiliary.py`,
`backend/main.py` and `backend/biochemCalculation.py`.  Per-residue scores
(Python floats holding small decimal values) are modelled as rationals;
sequence indices are naturals; segments are pairs of integers because the
sub-segment rescue uses `-1` as a sentinel start/end.  Python `while` loops
are embedded as fuel-indexed recursions where the fuel provided by the
wrapper is provably sufficient, so the wrapper computes exactly what the
loop computes.
-/

namespace PeptidePred

/-- Tuning constants from `auxiliary.py`. -/
def MIN_LENGTH : ℕ := 5

def MAX_GAP : ℕ := 3

def MIN_JPRED_SCORE : ℚ := 7

def MIN_TANGO_SCORE : ℚ := 0

/-- Python's `statistics.mean` on a list of rationals (`sum / n`). -/
def mean (l : List ℚ) : ℚ := l.sum / l.length

/-- Insert into a sorted list, keeping it sorted (ascending). -/
def insertSorted (x : ℚ) : List ℚ → List ℚ
  | [] => [x]
  | y :: ys => if x ≤ y then x :: y :: ys else y :: insertSorted x ys

/-- Ascending insertion sort, used to model `statistics.median`'s sort. -/
def sortAsc : List ℚ → List ℚ
  | [] => []
  | x :: xs => insertSorted x (sortAsc xs)

/-- Python's `statistics.median`: middle element of the sorted data for odd
length, average of the two middle elements for even length. -/
def median (l : List ℚ) : ℚ :=
  let s := sortAsc l
  let n := s.length
  if n % 2 = 1 then s.getD (n / 2) 0
  else (s.getD (n / 2 - 1) 0 + s.getD (n / 2) 0) / 2

/-- Python slice `l[a:b]` for `0 ≤ a ≤ b` (the only use sites). -/
def pySlice (l : List ℚ) (a b : ℕ) : List ℚ := (l.drop a).take (b - a)

/-- The inner `while` loop of `get_secondary_structure_segments`
(`auxiliary.py` lines 192-197): starting just after a candidate's first
positive residue, advance while the running gap of zero-valued residues is
at most `MAX_GAP`; returns the final loop index and gap counter. -/
def innerScan (p : List ℚ) : ℕ → ℕ → ℕ → ℕ × ℕ
  | 0, i, gap => (i, gap)
  | fuel + 1, i, gap =>
    if i < p.length ∧ gap ≤ MAX_GAP then
      if p.getD i 0 = 0 then innerScan p fuel (i + 1) (gap + 1)
      else innerScan p fuel (i + 1) 0
    else (i, gap)

/-- The direct acceptance test of `get_secondary_structure_segments`
(`auxiliary.py` lines 200-202).  Note the Python slice `prediction[start:end]`
stops one residue short of the (inclusive) candidate end `end`. -/
def good_segment (p : List ℚ) (minScore : ℚ) (s e : ℕ) : Prop :=
  MIN_LENGTH ≤ e - s + 1 ∧
    (minScore ≤ mean (pySlice p s e) ∨ minScore ≤ median (pySlice p s e))

instance (p : List ℚ) (minScore : ℚ) (s e : ℕ) :
    Decidable (good_segment p minScore s e) := by
  unfold good_segment; infer_instance

/-- The list of sub-segment lengths tried by `__check_subsegment`
(`auxiliary.py` line 151, `range(MIN_LENGTH, end - start + 1 + 1)`; an empty
Python range is modelled by the clamping `Int.toNat`). -/
def subsegLens (s e : ℕ) : List ℕ :=
  List.range' MIN_LENGTH ((e : ℤ) - s + 1 + 1 - MIN_LENGTH).toNat

/-- The list of start positions tried for a given sub-segment length
(`auxiliary.py` line 156, `range(start, end - cur_length + 1)`). -/
def subsegStarts (s e cl : ℕ) : List ℕ :=
  List.range' s ((e : ℤ) - cl + 1 - s).toNat

/-- The body of the inner loop of `__check_subsegment` (`auxiliary.py`
lines 157-162): replace the running best with the current sub-segment when
its mean or median beats the best score. -/
def subsegStep (p : List ℚ) (cl : ℕ) (acc : ℤ × ℤ × ℚ) (i : ℕ) : ℤ × ℤ × ℚ :=
  if mean (pySlice p i (i + cl)) > acc.2.2 ∨ median (pySlice p i (i + cl)) > acc.2.2 then
    ((i : ℤ), (i : ℤ) + (cl : ℤ),
      max (median (pySlice p i (i + cl))) (mean (pySlice p i (i + cl))))
  else acc

/-- Embedding of `__check_subsegment` (`auxiliary.py` lines 150-164): exhaustive search
over the tried lengths and starts, returning `(max_start, max_end, max_score)`
with initial value `(-1, -1, -1)`. -/
def check_subsegment (p : List ℚ) (s e : ℕ) : ℤ × ℤ × ℚ :=
  (subsegLens s e).foldl
    (fun (acc : ℤ × ℤ × ℚ) (cl : ℕ) => (subsegStarts s e cl).foldl (subsegStep p cl) acc)
    (-1, -1, -1)

/-- The candidate end computed at `auxiliary.py` line 199
(`end = i - 1 - gap` after the inner loop that started at `i + 1`). -/
def candidateEnd (p : List ℚ) (i : ℕ) : ℕ :=
  (innerScan p p.length (i + 1) 0).1 - 1 - (innerScan p p.length (i + 1) 0).2

/-- The scan position after a candidate is processed: the inner loop's final
index, plus the outer loop's `i += 1` (`auxiliary.py` line 211). -/
def innerNext (p : List ℚ) (i : ℕ) : ℕ :=
  (innerScan p p.length (i + 1) 0).1 + 1

/-- The outer `while` loop of `get_secondary_structure_segments`
(`auxiliary.py` lines 186-211), fuel-indexed. -/
def getSegmentsAux (p : List ℚ) (minScore : ℚ) : ℕ → ℕ → List (ℤ × ℤ)
  | 0, _ => []
  | fuel + 1, i =>
    if i < p.length then
      if 0 < p.getD i 0 then
        if good_segment p minScore i (candidateEnd p i) then
          ((i : ℤ), (candidateEnd p i : ℤ)) ::
            getSegmentsAux p minScore fuel (innerNext p i)
        else if MIN_LENGTH ≤ candidateEnd p i - i + 1 then
          if (check_subsegment p i (candidateEnd p i)).2.1 ≠ -1 ∧
              (check_subsegment p i (candidateEnd p i)).1 ≠ -1 ∧
              minScore ≤ (check_subsegment p i (candidateEnd p i)).2.2 then
            ((check_subsegment p i (candidateEnd p i)).1,
              (check_subsegment p i (candidateEnd p i)).2.1) ::
              getSegmentsAux p minScore fuel (innerNext p i)
          else getSegmentsAux p minScore fuel (innerNext p i)
        else getSegmentsAux p minScore fuel (innerNext p i)
      else getSegmentsAux p minScore fuel (i + 1)
    else []

/-- Embedding of `get_secondary_structure_segments` (`auxiliary.py` lines 167-212),
parameterised directly by the method threshold (`MIN_TANGO_SCORE` for
"Tango", `MIN_JPRED_SCORE` for "Jpred").  A fuel of `p.length` is enough
because the scan index strictly increases at every outer-loop iteration. -/
def get_secondary_structure_segments (p : List ℚ) (minScore : ℚ) : List (ℤ × ℤ) :=
  getSegmentsAux p minScore p.length 0

/-! ### SSW merger (`find_secondary_structure_switch_segments`) -/

/-- The cursor-merge loop of `find_secondary_structure_switch_segments`
(`auxiliary.py` lines 269-309), fuel-indexed; the loop stops as soon as one
of the two lists is exhausted.  The branches appear in exactly the source
order; the two final Python branches are unreachable (the third and fourth
conditions together cover every remaining case), so the catch-all result
after them is never produced. -/
def findSSWAux : ℕ → List (ℤ × ℤ) → List (ℤ × ℤ) → List (ℤ × ℤ)
  | 0, _, _ => []
  | _ + 1, [], _ => []
  | _ + 1, _, [] => []
  | fuel + 1, (bStart, bEnd) :: bRest, (hStart, hEnd) :: hRest =>
    if hEnd ≤ bStart then findSSWAux fuel ((bStart, bEnd) :: bRest) hRest
    else if bEnd ≤ hStart then findSSWAux fuel bRest ((hStart, hEnd) :: hRest)
    else if bStart < hStart ∨ bStart = hStart then
      (hStart, hEnd) ::
        (if hEnd = bEnd then findSSWAux fuel bRest hRest
         else findSSWAux fuel ((bStart, bEnd) :: bRest) hRest)
    else if hStart ≤ bStart then
      (bStart, bEnd) ::
        (if hEnd = bEnd then findSSWAux fuel bRest hRest
         else findSSWAux fuel bRest ((hStart, hEnd) :: hRest))
    else if bStart < hStart ∧ bEnd < hEnd then
      (hStart, bEnd) :: findSSWAux fuel bRest ((hStart, hEnd) :: hRest)
    else if hStart < bStart ∧ hEnd < bEnd then
      (bStart, hEnd) :: findSSWAux fuel ((bStart, bEnd) :: bRest) hRest
    else []

/-- Embedding of `find_secondary_structure_switch_segments(beta_segments, helix_segments)`
(`auxiliary.py` lines 255-312).  Every loop iteration advances at least one
cursor, so a fuel of `beta.length + helix.length` is enough. -/
def find_secondary_structure_switch_segments
    (beta_segments helix_segments : List (ℤ × ℤ)) : List (ℤ × ℤ) :=
  findSSWAux (beta_segments.length + helix_segments.length) beta_segments helix_segments

/-! ### SSW scorer -/

/-- Python slice `prediction[start : end + 1]` for an integer-valued segment
(all segments produced by the pipeline have non-negative endpoints). -/
def sliceInc (p : List ℚ) (s e : ℤ) : List ℚ :=
  (p.drop s.toNat).take (e + 1 - s).toNat

/-- Embedding of `__calc_average_score` (`auxiliary.py` lines 215-230): the mean of the
per-segment means of `prediction` over each inclusive segment range, or `-1`
for an empty segment list. -/
def calc_average_score (prediction : List ℚ) (idx : List (ℤ × ℤ)) : ℚ :=
  if idx.length = 0 then -1
  else mean (idx.map (fun s => mean (sliceInc prediction s.1 s.2)))

/-- Embedding of `calc_secondary_structure_switch_difference_and_score`
(`auxiliary.py` lines 233-252): `(-1, -1)` for an empty merged list; otherwise
`(beta_score + helix_score, |beta_score - helix_score|)`. -/
def calc_secondary_structure_switch_difference_and_score
    (beta_prediction helix_prediction : List ℚ) (idx : List (ℤ × ℤ)) : ℚ × ℚ :=
  if idx.length = 0 then (-1, -1)
  else
    let beta_score := calc_average_score beta_prediction idx
    let helix_score := calc_average_score helix_prediction idx
    (beta_score + helix_score, |beta_score - helix_score|)

/-! ### Fibril-forming classifier (`main.py`, `perform_fibril_formation_prediction`) -/

/-- One row of the classifier's input table: the columns of `main.py`
lines 145-163 that `perform_fibril_formation_prediction` reads. -/
structure PeptideRow where
  sswPrediction : ℚ     -- "SSW prediction"
  hydrophobicity : ℚ    -- "Hydrophobicity"
  betaFullUH : ℚ        -- "Beta full length uH"
  fullUH : ℚ            -- "Full length uH"
  sswScore : ℚ          -- "SSW score"
  helixFragments : List (ℤ × ℤ)  -- "Helix fragments (Jpred)"
  helixScore : ℚ        -- "Helix score (Jpred)"
  helixUH : ℚ           -- "Helix (Jpred) uH"
  deriving DecidableEq

/-- Threshold `ssw_avg_H` (`main.py` line 145): mean hydrophobicity over the rows whose
"SSW prediction" is not 1. -/
def ssw_avg_H (batch : List PeptideRow) : ℚ :=
  mean ((batch.filter (fun r => r.sswPrediction ≠ 1)).map (fun r => r.hydrophobicity))

/-- Threshold `jpred_helix_avg_uH` (`main.py` line 147): mean helix-segment-averaged
moment over the rows whose "Helix score (Jpred)" is not -1. -/
def jpred_helix_avg_uH (batch : List PeptideRow) : ℚ :=
  mean ((batch.filter (fun r => r.helixScore ≠ -1)).map (fun r => r.helixUH))

/-- The per-row body of the loop in `main.py` lines 155-170.  The first pair
is ("FF-Secondary structure switch", "FF-Secondary structure switch score")
(the positive flag is appended as the string "1" in the source, modelled as
the number 1 here), the second is ("FF-Helix (Jpred)", "FF-helix score"). -/
def classifyRow (batch : List PeptideRow) (r : PeptideRow) : (ℤ × ℚ) × (ℤ × ℚ) :=
  ((if r.sswPrediction = 1 ∧ ssw_avg_H batch ≤ r.hydrophobicity then
      (1, r.hydrophobicity + r.betaFullUH + r.fullUH + r.sswScore)
    else (-1, -1)),
   (if r.helixFragments.length ≠ 0 ∧ jpred_helix_avg_uH batch ≤ r.helixUH then
      (1, r.fullUH + r.helixScore)
    else (-1, -1)))

/-- Embedding of `perform_fibril_formation_prediction` (`main.py` lines 123-175), restricted
to the four prediction columns it appends. -/
def perform_fibril_formation_prediction (batch : List PeptideRow) :
    List ((ℤ × ℚ) × (ℤ × ℚ)) :=
  batch.map (classifyRow batch)

/-! ### Biophysical calculator (`biochemCalculation.py`) -/

/-- The Fauchere-Pliska hydrophobicity scale (`biochemCalculation.py`
lines 4-10); `none` for residues outside the table (`dict.get` returns
`None` there, which makes `hydrophobic_moment` raise). -/
def Fauchere_Pliska : Char → Option ℚ
  | 'A' => some 0.31 | 'R' => some (-1.01) | 'N' => some (-0.60)
  | 'D' => some (-0.77) | 'C' => some 1.54 | 'Q' => some (-0.22)
  | 'E' => some (-0.64) | 'G' => some 0.00 | 'H' => some 0.13
  | 'I' => some 1.80 | 'L' => some 1.70 | 'K' => some (-0.99)
  | 'M' => some 1.23 | 'F' => some 1.79 | 'P' => some 0.72
  | 'S' => some (-0.04) | 'T' => some 0.26 | 'W' => some 2.25
  | 'Y' => some 0.96 | 'V' => some 1.22
  | _ => none

/-- The accumulation loop of `hydrophobic_moment` (`biochemCalculation.py`
lines 41-45): fold over the enumerated residues, adding each residue's
hydrophobicity projected on `cos`/`sin` of `i * angle` degrees in radians. -/
noncomputable def momentSums (seq : List Char) (angle : ℝ) : ℝ × ℝ :=
  seq.enum.foldl
    (fun acc x =>
      let hv : ℝ := (((Fauchere_Pliska x.2).getD 0 : ℚ) : ℝ)
      let rad_inc : ℝ := ((x.1 : ℝ) * angle) * Real.pi / 180
      (acc.1 + hv * Real.cos rad_inc, acc.2 + hv * Real.sin rad_inc))
    (0, 0)

/-- Embedding of `hydrophobic_moment` (`biochemCalculation.py` lines 24-47).  The two
failure modes of the Python function - the assert on an empty sequence and
the `TypeError` from a `None` table lookup - are both modelled as `none`. -/
noncomputable def hydrophobic_moment (seq : List Char) (angle : ℝ := 100) : Option ℝ :=
  if seq.length = 0 then none
  else if ¬ seq.all (fun c => (Fauchere_Pliska c).isSome) then none
  else
    some (Real.sqrt ((momentSums seq angle).1 ^ 2 + (momentSums seq angle).2 ^ 2) /
      seq.length)

/-! ### FF-Helix core estimator (`auxiliary.py` lines 20-59) -/

/-- The helix-propensity table `_HELIX_PROP`; `dict.get(aa, 1.0)` defaults to
1 for characters outside the table. -/
def HELIX_PROP : Char → ℚ
  | 'A' => 1.42 | 'E' => 1.51 | 'L' => 1.21 | 'M' => 1.45 | 'Q' => 1.11
  | 'K' => 1.14 | 'R' => 0.98 | 'I' => 1.08 | 'V' => 1.06 | 'W' => 1.08
  | 'F' => 1.13 | 'T' => 0.83 | 'S' => 0.77 | 'Y' => 0.69 | 'H' => 1.00
  | 'C' => 0.70 | 'N' => 0.67 | 'D' => 1.01 | 'G' => 0.57 | 'P' => 0.57
  | _ => 1

/-- Embedding of `_hprop` (`auxiliary.py` lines 29-31): per-residue helix propensities of
the upper-cased sequence. -/
def hprop (seq : List Char) : List ℚ := (seq.map Char.toUpper).map HELIX_PROP

/-- Python's `str.strip()`: drop whitespace from both ends. -/
def pyStrip (l : List Char) : List Char :=
  (((l.dropWhile Char.isWhitespace).reverse).dropWhile Char.isWhitespace).reverse

/-- The mean propensity of the width-`core_len` window starting at `i`
(`auxiliary.py` lines 47-48). -/
def windowMean (hp : List ℚ) (core_len i : ℕ) : ℚ :=
  (pySlice hp i (i + core_len)).sum / core_len

/-- Whether residue `j` is marked `in_core` by the window loop of
`ff_helix_percent` (`auxiliary.py` lines 46-53): some window of width
`core_len` whose mean propensity reaches `thr` covers `j`. -/
def inCore (hp : List ℚ) (core_len : ℕ) (thr : ℚ) (j : ℕ) : Bool :=
  (List.range (hp.length + 1 - core_len)).any
    (fun i => decide (i ≤ j) && decide (j < i + core_len) &&
      decide (thr ≤ windowMean hp core_len i))

/-- The number of residues marked `in_core`. -/
def coreCount (hp : List ℚ) (core_len : ℕ) (thr : ℚ) (n : ℕ) : ℕ :=
  ((List.range n).filter (fun j => inCore hp core_len thr j)).length

/-- Python's `round(x, 1)`: scale by 10, round half to even, scale back. -/
def round1 (x : ℚ) : ℚ :=
  let y := 10 * x
  let f : ℤ := ⌊y⌋
  let r : ℤ :=
    if y - f < 1 / 2 then f
    else if 1 / 2 < y - f then f + 1
    else if f % 2 = 0 then f else f + 1
  (r : ℚ) / 10

/-- Embedding of `ff_helix_percent` (`auxiliary.py` lines 33-59), with `s` the upper-cased
stripped sequence: `0.0` when `s` is shorter than the window or no residue is
marked, otherwise `100 * marked / len(s)` rounded to one decimal place. -/
def ff_helix_percent (seq : List Char) (core_len : ℕ := 6) (thr : ℚ := 1) : ℚ :=
  if (pyStrip (seq.map Char.toUpper)).length < core_len then 0
  else if coreCount (hprop (pyStrip (seq.map Char.toUpper))) core_len thr
      (pyStrip (seq.map Char.toUpper)).length = 0 then 0
  else
    round1 (100 * (coreCount (hprop (pyStrip (seq.map Char.toUpper))) core_len thr
      (pyStrip (seq.map Char.toUpper)).length : ℚ) / (pyStrip (seq.map Char.toUpper)).length)

/-! ### Spec-side definitions

These definitions follow the wording of the (amended) specification claims,
written independently of the embedding above, so that the claim theorems can
compare the two formulations. -/

/-- The track's scores at positions `start, start + 1, ..., end - 1` — the
candidate's last residue `end` is excluded.  Written from the amended claim,
position by position, independently of `pySlice`. -/
def scoresBeforeEnd (p : List ℚ) (s e : ℕ) : List ℚ :=
  (List.range (e - s)).map (fun k => p.getD (s + k) 0)

/-- The amended direct-acceptance rule: a candidate `[start, end]` of trimmed
length at least `MIN_LENGTH` is accepted directly iff the mean or the median
of the scores at positions `start .. end - 1` reaches the threshold. -/
def acceptedDirectlySpec (p : List ℚ) (minScore : ℚ) (s e : ℕ) : Prop :=
  MIN_LENGTH ≤ e - s + 1 ∧
    (minScore ≤ mean (scoresBeforeEnd p s e) ∨ minScore ≤ median (scoresBeforeEnd p s e))

/-- A sub-segment's score per the claim: the maximum of its own mean and
median, the sub-segment being the window of length `l` starting at `a`. -/
def windowScore (p : List ℚ) (a l : ℕ) : ℚ :=
  max (mean (pySlice p a (a + l))) (median (pySlice p a (a + l)))

/-- The sub-segments considered by the amended rescue rule: length at least
`MIN_LENGTH`, starting at or after the candidate start, and ending strictly
before the candidate's last residue (`a + l - 1 ≤ e - 1`). -/
def rescueWindow (s e a l : ℕ) : Prop :=
  MIN_LENGTH ≤ l ∧ s ≤ a ∧ a + l ≤ e

/-- A classifier row that carries a positive SSW flag (used as a concrete
batch element in evaluations). -/
def rowA : PeptideRow := ⟨1, 2, 3, 4, 5, [((0 : ℤ), (4 : ℤ))], 6, 7⟩

/-- A classifier row without a positive SSW flag. -/
def rowB : PeptideRow := ⟨-1, 1, 0, 0, 0, [], -1, 0⟩

/-! ## General lemmas about the segment scan -/

/-- The inner gap-scan only moves forward, and the position of the last
non-gap residue (`i - 1 - gap`) never moves backwards. -/
lemma innerScan_spec (p : List ℚ) :
    ∀ fuel i gap, i ≤ (innerScan p fuel i gap).1 ∧
      (i : ℤ) - 1 - gap ≤
        ((innerScan p fuel i gap).1 : ℤ) - ((innerScan p fuel i gap).2 : ℤ) - 1 := by
  intro fuel
  induction fuel with
  | zero => intro i gap; simp [innerScan]; omega
  | succ n ih =>
    intro i gap
    simp only [innerScan]
    split
    · split
      · have h := ih (i + 1) (gap + 1)
        refine ⟨by omega, by push_cast at h ⊢; omega⟩
      · have h := ih (i + 1) 0
        refine ⟨by omega, by push_cast at h ⊢; omega⟩
    · exact ⟨le_refl _, by omega⟩

/-- Position bookkeeping for one candidate: the candidate end lies at or
after the candidate start, and strictly before the next scan position. -/
lemma candidateEnd_bounds (p : List ℚ) (i : ℕ) :
    i ≤ candidateEnd p i ∧ candidateEnd p i + 1 < innerNext p i ∧ i + 1 < innerNext p i := by
  have h := innerScan_spec p p.length (i + 1) 0
  unfold candidateEnd innerNext
  push_cast at h
  omega

/-- One update step of the sub-segment search never lowers the best score. -/
lemma subsegStep_mono (p : List ℚ) (cl : ℕ) (acc : ℤ × ℤ × ℚ) (i : ℕ) :
    acc.2.2 ≤ (subsegStep p cl acc i).2.2 := by
  unfold subsegStep
  split
  · rename_i h
    rcases h with h | h
    · exact le_trans h.le (le_max_right _ _)
    · exact le_trans h.le (le_max_left _ _)
  · exact le_refl _

/-- The inner fold of the sub-segment search never lowers the best score. -/
lemma subsegFold_mono (p : List ℚ) (cl : ℕ) :
    ∀ (L : List ℕ) (acc : ℤ × ℤ × ℚ), acc.2.2 ≤ (L.foldl (subsegStep p cl) acc).2.2 := by
  intro L
  induction L with
  | nil => intro acc; exact le_refl _
  | cons x xs ih =>
    intro acc
    exact le_trans (subsegStep_mono p cl acc x) (ih (subsegStep p cl acc x))

/-- After the inner fold, the best score dominates the score of every
sub-segment in the processed list. -/
lemma subsegFold_max (p : List ℚ) (cl : ℕ) :
    ∀ (L : List ℕ) (acc : ℤ × ℤ × ℚ) (i : ℕ), i ∈ L →
      max (median (pySlice p i (i + cl))) (mean (pySlice p i (i + cl))) ≤
        (L.foldl (subsegStep p cl) acc).2.2 := by
  intro L
  induction L with
  | nil => intro acc i h; cases h
  | cons x xs ih =>
    intro acc i h
    rcases List.mem_cons.mp h with rfl | h
    · refine le_trans ?_ (subsegFold_mono p cl xs (subsegStep p cl acc i))
      unfold subsegStep
      split
      · exact le_refl _
      · rename_i hcond
        push_neg at hcond
        exact max_le hcond.2 hcond.1
    · exact ih (subsegStep p cl acc x) i h

/-- The inner fold either keeps the accumulator or returns a record of one of
the processed sub-segments. -/
lemma subsegFold_cases (p : List ℚ) (cl : ℕ) :
    ∀ (L : List ℕ) (acc : ℤ × ℤ × ℚ),
      L.foldl (subsegStep p cl) acc = acc ∨
        ∃ i ∈ L, L.foldl (subsegStep p cl) acc =
          ((i : ℤ), (i : ℤ) + (cl : ℤ),
            max (median (pySlice p i (i + cl))) (mean (pySlice p i (i + cl)))) := by
  intro L
  induction L with
  | nil => intro acc; exact Or.inl rfl
  | cons x xs ih =>
    intro acc
    rcases ih (subsegStep p cl acc x) with h | ⟨i, hi, h⟩
    · rw [List.foldl_cons, h]
      unfold subsegStep
      split
      · exact Or.inr ⟨x, List.mem_cons_self x xs, rfl⟩
      · exact Or.inl rfl
    · exact Or.inr ⟨i, List.mem_cons_of_mem x hi, by rw [List.foldl_cons, h]⟩

/-- Arithmetic description of the tried sub-segment lengths. -/
lemma mem_subsegLens {s e cl : ℕ} :
    cl ∈ subsegLens s e ↔ MIN_LENGTH ≤ cl ∧ (cl : ℤ) ≤ (e : ℤ) - s + 1 := by
  unfold subsegLens
  rw [List.mem_range']
  constructor
  · rintro ⟨i, hi, rfl⟩; omega
  · intro h
    refine ⟨cl - MIN_LENGTH, by omega, by omega⟩

/-- Arithmetic description of the tried sub-segment starts. -/
lemma mem_subsegStarts {s e cl i : ℕ} :
    i ∈ subsegStarts s e cl ↔ s ≤ i ∧ (i : ℤ) + cl ≤ e := by
  unfold subsegStarts
  rw [List.mem_range']
  constructor
  · rintro ⟨k, hk, rfl⟩; omega
  · intro h
    refine ⟨i - s, by omega, by omega⟩

/-- The outer fold of the sub-segment search never lowers the best score. -/
lemma checkFold_mono (p : List ℚ) (s e : ℕ) :
    ∀ (L : List ℕ) (acc : ℤ × ℤ × ℚ),
      acc.2.2 ≤ (L.foldl
        (fun a cl => (subsegStarts s e cl).foldl (subsegStep p cl) a) acc).2.2 := by
  intro L
  induction L with
  | nil => intro acc; exact le_refl _
  | cons x xs ih =>
    intro acc
    exact le_trans (subsegFold_mono p x (subsegStarts s e x) acc) (ih _)

/-- After the outer fold, the best score dominates every processed pair. -/
lemma checkFold_max (p : List ℚ) (s e : ℕ) :
    ∀ (L : List ℕ) (acc : ℤ × ℤ × ℚ) (cl : ℕ), cl ∈ L → ∀ i ∈ subsegStarts s e cl,
      max (median (pySlice p i (i + cl))) (mean (pySlice p i (i + cl))) ≤
        (L.foldl (fun a cl => (subsegStarts s e cl).foldl (subsegStep p cl) a) acc).2.2 := by
  intro L
  induction L with
  | nil => intro acc cl h; cases h
  | cons x xs ih =>
    intro acc cl h i hi
    rcases List.mem_cons.mp h with rfl | h
    · exact le_trans (subsegFold_max p cl (subsegStarts s e cl) acc i hi)
        (checkFold_mono p s e xs _)
    · exact ih _ cl h i hi

/-- The outer fold either keeps the accumulator or returns the record of a
processed sub-segment. -/
lemma checkFold_cases (p : List ℚ) (s e : ℕ) :
    ∀ (L : List ℕ) (acc : ℤ × ℤ × ℚ),
      L.foldl (fun a cl => (subsegStarts s e cl).foldl (subsegStep p cl) a) acc = acc ∨
        ∃ cl ∈ L, ∃ i ∈ subsegStarts s e cl,
          L.foldl (fun a cl => (subsegStarts s e cl).foldl (subsegStep p cl) a) acc =
            ((i : ℤ), (i : ℤ) + (cl : ℤ),
              max (median (pySlice p i (i + cl))) (mean (pySlice p i (i + cl)))) := by
  intro L
  induction L with
  | nil => intro acc; exact Or.inl rfl
  | cons x xs ih =>
    intro acc
    rcases ih ((subsegStarts s e x).foldl (subsegStep p x) acc) with h | ⟨cl, hcl, i, hi, h⟩
    · rw [List.foldl_cons, h]
      rcases subsegFold_cases p x (subsegStarts s e x) acc with h2 | ⟨i, hi, h2⟩
      · exact Or.inl h2
      · exact Or.inr ⟨x, List.mem_cons_self x xs, i, hi, h2⟩
    · exact Or.inr ⟨cl, List.mem_cons_of_mem x hcl, i, hi, by rw [List.foldl_cons, h]⟩

/-- Summary facts about `__check_subsegment` used by the scan invariants:
either the sentinel triple is returned, or the result records a sub-segment
of length at least `MIN_LENGTH` contained in `[s, e - 1]`; in both cases the
returned score dominates the score of every tried sub-segment. -/
lemma check_subsegment_spec (p : List ℚ) (s e : ℕ) :
    (check_subsegment p s e = (-1, -1, -1) ∨
      ∃ a l, MIN_LENGTH ≤ l ∧ s ≤ a ∧ a + l ≤ e ∧
        check_subsegment p s e = ((a : ℤ), (a : ℤ) + (l : ℤ),
          max (median (pySlice p a (a + l))) (mean (pySlice p a (a + l))))) ∧
    (∀ a l, MIN_LENGTH ≤ l → s ≤ a → a + l ≤ e →
      max (median (pySlice p a (a + l))) (mean (pySlice p a (a + l))) ≤
        (check_subsegment p s e).2.2) := by
  constructor
  · rcases checkFold_cases p s e (subsegLens s e) (-1, -1, -1) with h | ⟨cl, hcl, i, hi, h⟩
    · exact Or.inl h
    · refine Or.inr ⟨i, cl, (mem_subsegLens.mp hcl).1, (mem_subsegStarts.mp hi).1, ?_, h⟩
      have := (mem_subsegStarts.mp hi).2
      omega
  · intro a l hl hs he
    refine checkFold_max p s e (subsegLens s e) (-1, -1, -1) l ?_ a ?_
    · exact mem_subsegLens.mpr ⟨hl, by omega⟩
    · exact mem_subsegStarts.mpr ⟨hs, by omega⟩

/-- Invariant of the outer scan: starting the scan at position `i`, every
produced segment starts at or after `i`, is well-formed (`start ≤ end`) with
length at least `MIN_LENGTH`, and consecutive segments are strictly
separated (`previous end < next start`). -/
lemma getSegmentsAux_inv (p : List ℚ) (ms : ℚ) :
    ∀ fuel i,
      (∀ s ∈ getSegmentsAux p ms fuel i,
        (i : ℤ) ≤ s.1 ∧ s.1 ≤ s.2 ∧ (MIN_LENGTH : ℤ) ≤ s.2 - s.1 + 1) ∧
      List.Pairwise (fun a b => a.2 < b.1) (getSegmentsAux p ms fuel i) := by
  intro fuel
  induction fuel with
  | zero => intro i; simp [getSegmentsAux]
  | succ n ih =>
    intro i
    obtain ⟨hce1, hce2, hce3⟩ := candidateEnd_bounds p i
    have hml : (MIN_LENGTH : ℤ) = 5 := rfl
    have hmln : MIN_LENGTH = 5 := rfl
    simp only [getSegmentsAux]
    split_ifs with h1 h2 h3 h4 h5
    · -- direct acceptance
      obtain ⟨ihm, ihp⟩ := ih (innerNext p i)
      refine ⟨?_, ?_⟩
      · intro s hs
        rcases List.mem_cons.mp hs with rfl | hs
        · have := h3.1
          unfold good_segment at h3
          have h3' := h3.1
          simp only [MIN_LENGTH] at h3' ⊢
          push_cast
          omega
        · have := (ihm s hs).1
          have := (ihm s hs).2.1
          have := (ihm s hs).2.2
          push_cast at *
          refine ⟨by omega, by omega, by omega⟩
      · refine List.pairwise_cons.mpr ⟨?_, ihp⟩
        intro b hb
        have := (ihm b hb).1
        push_cast at *
        omega
    · -- sub-segment rescue appends
      obtain ⟨ihm, ihp⟩ := ih (innerNext p i)
      rcases (check_subsegment_spec p i (candidateEnd p i)).1 with hsent | ⟨a, l, hl, ha, hae, heq⟩
      · exact absurd (by rw [hsent]) h5.1
      · rw [heq]
        simp only [MIN_LENGTH] at hl
        refine ⟨?_, ?_⟩
        · intro s hs
          rcases List.mem_cons.mp hs with rfl | hs
          · refine ⟨by push_cast; omega, by push_cast; omega, by push_cast; omega⟩
          · have h6 := (ihm s hs).1
            have h7 := (ihm s hs).2.1
            have h8 := (ihm s hs).2.2
            push_cast at *
            refine ⟨by omega, by omega, by omega⟩
        · refine List.pairwise_cons.mpr ⟨?_, ihp⟩
          intro b hb
          have := (ihm b hb).1
          push_cast at *
          omega
    · -- rescue guard fails
      obtain ⟨ihm, ihp⟩ := ih (innerNext p i)
      refine ⟨fun s hs => ?_, ihp⟩
      have h6 := (ihm s hs).1
      have h7 := (ihm s hs).2.1
      have h8 := (ihm s hs).2.2
      push_cast at *
      refine ⟨by omega, by omega, by omega⟩
    · -- candidate shorter than MIN_LENGTH
      obtain ⟨ihm, ihp⟩ := ih (innerNext p i)
      refine ⟨fun s hs => ?_, ihp⟩
      have h6 := (ihm s hs).1
      have h7 := (ihm s hs).2.1
      have h8 := (ihm s hs).2.2
      push_cast at *
      refine ⟨by omega, by omega, by omega⟩
    · -- non-positive residue, move one step
      obtain ⟨ihm, ihp⟩ := ih (i + 1)
      refine ⟨fun s hs => ?_, ihp⟩
      have h6 := (ihm s hs).1
      have h7 := (ihm s hs).2.1
      have h8 := (ihm s hs).2.2
      push_cast at *
      refine ⟨by omega, by omega, by omega⟩
    · -- scan finished
      simp

/-! ## Lemmas about the SSW merger -/

/-- Every segment emitted by the merge loop is literally one of the input
segments: in an overlap the third source branch (`b_start <= h_start`) emits
the helix segment verbatim and the fourth (`h_start <= b_start`) emits the
beta segment verbatim; the two remaining "hybrid span" branches are dead
code because those two conditions are exhaustive. -/
lemma findSSWAux_mem :
    ∀ fuel (bs hs : List (ℤ × ℤ)), ∀ x ∈ findSSWAux fuel bs hs, x ∈ hs ∨ x ∈ bs := by
  intro fuel
  induction fuel with
  | zero => intro bs hs x hx; simp [findSSWAux] at hx
  | succ n ih =>
    intro bs hs x hx
    match bs, hs with
    | [], _ => simp [findSSWAux] at hx
    | _ :: _, [] => simp [findSSWAux] at hx
    | (bS, bE) :: bRest, (hS, hE) :: hRest =>
      simp only [findSSWAux] at hx
      split_ifs at hx with h1 h2 h3 h34 h4 h45 h5 h6
      · rcases ih ((bS, bE) :: bRest) hRest x hx with h | h
        · exact Or.inl (List.mem_cons_of_mem _ h)
        · exact Or.inr h
      · rcases ih bRest ((hS, hE) :: hRest) x hx with h | h
        · exact Or.inl h
        · exact Or.inr (List.mem_cons_of_mem _ h)
      · rcases List.mem_cons.mp hx with rfl | hx
        · exact Or.inl (List.mem_cons_self _ _)
        · rcases ih bRest hRest x hx with h | h
          · exact Or.inl (List.mem_cons_of_mem _ h)
          · exact Or.inr (List.mem_cons_of_mem _ h)
      · rcases List.mem_cons.mp hx with rfl | hx
        · exact Or.inl (List.mem_cons_self _ _)
        · rcases ih ((bS, bE) :: bRest) hRest x hx with h | h
          · exact Or.inl (List.mem_cons_of_mem _ h)
          · exact Or.inr h
      · rcases List.mem_cons.mp hx with rfl | hx
        · exact Or.inr (List.mem_cons_self _ _)
        · rcases ih bRest hRest x hx with h | h
          · exact Or.inl (List.mem_cons_of_mem _ h)
          · exact Or.inr (List.mem_cons_of_mem _ h)
      · rcases List.mem_cons.mp hx with rfl | hx
        · exact Or.inr (List.mem_cons_self _ _)
        · rcases ih bRest ((hS, hE) :: hRest) x hx with h | h
          · exact Or.inl h
          · exact Or.inr (List.mem_cons_of_mem _ h)
      · exact absurd (Or.inl h5.1) h3
      · exact absurd h6.1.le h4
      · omega

/-! ## Slice and estimator lemmas -/

/-- For an in-range end position, the Python slice `p[s:e]` is exactly the
list of scores at positions `s, s + 1, ..., e - 1`. -/
lemma pySlice_eq_scoresBeforeEnd (l : List ℚ) (s e : ℕ) (h : e ≤ l.length) :
    pySlice l s e = scoresBeforeEnd l s e := by
  unfold pySlice scoresBeforeEnd
  apply List.ext_getElem
  · simp only [List.length_take, List.length_drop, List.length_map, List.length_range]
    omega
  · intro n h1 h2
    simp only [List.length_take, List.length_drop] at h1
    simp only [List.getElem_take, List.getElem_drop, List.getElem_map, List.getElem_range]
    rw [List.getD_eq_getElem]

/-- Stripping whitespace never lengthens a string. -/
lemma pyStrip_length_le (l : List Char) : (pyStrip l).length ≤ l.length := by
  unfold pyStrip
  calc ((((l.dropWhile Char.isWhitespace).reverse).dropWhile Char.isWhitespace).reverse).length
      = (((l.dropWhile Char.isWhitespace).reverse).dropWhile Char.isWhitespace).length := by
        rw [List.length_reverse]
    _ ≤ ((l.dropWhile Char.isWhitespace).reverse).length :=
        (List.dropWhile_suffix Char.isWhitespace).length_le
    _ = (l.dropWhile Char.isWhitespace).length := by rw [List.length_reverse]
    _ ≤ l.length := (List.dropWhile_suffix Char.isWhitespace).length_le

/-- If no window reaches the threshold, no residue is marked. -/
lemma coreCount_eq_zero (hp : List ℚ) (core_len : ℕ) (thr : ℚ) (n : ℕ)
    (h : ∀ i, windowMean hp core_len i < thr) : coreCount hp core_len thr n = 0 := by
  unfold coreCount
  rw [List.length_eq_zero, List.filter_eq_nil_iff]
  intro j _
  unfold inCore
  simp only [List.any_eq_true, Bool.and_eq_true, decide_eq_true_eq, not_exists, not_and]
  intro i _ _ hth
  exact absurd hth (not_le.mpr (h i))

/-- A sequence shorter than the window width yields `0.0`. -/
lemma ff_helix_percent_short (seq : List Char) (h : seq.length < 6) :
    ff_helix_percent seq = 0 := by
  unfold ff_helix_percent
  rw [if_pos]
  have h1 := pyStrip_length_le (seq.map Char.toUpper)
  rw [List.length_map] at h1
  omega

/-- If no width-6 window of the processed sequence reaches the threshold,
the result is `0.0`. -/
lemma ff_helix_percent_no_window (seq : List Char)
    (h : ∀ i, windowMean (hprop (pyStrip (seq.map Char.toUpper))) 6 i < 1) :
    ff_helix_percent seq = 0 := by
  unfold ff_helix_percent
  split_ifs with h1 h2
  · rfl
  · rfl
  · exact absurd (coreCount_eq_zero _ _ _ _ h) h2

/-- In the remaining case the returned value is the rounded percentage of
marked residues. -/
lemma ff_helix_percent_formula (seq : List Char)
    (h1 : ¬ (pyStrip (seq.map Char.toUpper)).length < 6)
    (h2 : coreCount (hprop (pyStrip (seq.map Char.toUpper))) 6 1
      (pyStrip (seq.map Char.toUpper)).length ≠ 0) :
    ff_helix_percent seq =
      round1 (100 * (coreCount (hprop (pyStrip (seq.map Char.toUpper))) 6 1
        (pyStrip (seq.map Char.toUpper)).length : ℚ) /
        (pyStrip (seq.map Char.toUpper)).length) := by
  unfold ff_helix_percent
  rw [if_neg h1, if_neg h2]

/-! ## Claim theorems (general statements) -/

/-- C5: every segment emitted by the SSW merger is literally one of the input
segments — in every overlap either the helix segment's full span or the beta
segment's full span is emitted, and the two "hybrid span" branches of the
source are unreachable. -/
theorem C5_merge_emits_input_segments (beta_segments helix_segments : List (ℤ × ℤ)) :
    ∀ x ∈ find_secondary_structure_switch_segments beta_segments helix_segments,
      x ∈ helix_segments ∨ x ∈ beta_segments := fun x hx =>
  findSSWAux_mem (beta_segments.length + helix_segments.length) beta_segments
    helix_segments x hx

/-- C6: for every prediction track and threshold the extractor's result is
non-overlapping (each segment ends strictly before the next starts), sorted
strictly ascending by start, every segment has non-negative start,
`start ≤ end`, and length at least `MIN_LENGTH`; and repeated calls return
the identical list (the function is deterministic). -/
theorem C6_extraction_invariants (p : List ℚ) (minScore : ℚ) :
    List.Pairwise (fun a b => a.2 < b.1) (get_secondary_structure_segments p minScore) ∧
    List.Pairwise (fun a b => a.1 < b.1) (get_secondary_structure_segments p minScore) ∧
    (∀ s ∈ get_secondary_structure_segments p minScore,
      0 ≤ s.1 ∧ s.1 ≤ s.2 ∧ (MIN_LENGTH : ℤ) ≤ s.2 - s.1 + 1) ∧
    get_secondary_structure_segments p minScore = get_secondary_structure_segments p minScore := by
  obtain ⟨hm, hp⟩ := getSegmentsAux_inv p minScore p.length 0
  refine ⟨hp, ?_, fun s hs => ⟨by have := (hm s hs).1; omega, (hm s hs).2.1, (hm s hs).2.2⟩, rfl⟩
  exact hp.imp_of_mem (fun {a b} ha _ hr => lt_of_le_of_lt (hm a ha).2.1 hr)

/-- C7: the SSW scorer returns the sentinel pair `(-1, -1)` exactly for the
empty merged-segment list; on a non-empty list it returns the sum of the two
per-track averages (each the mean over the merged segments of the segment's
mean track value on its inclusive range) and their absolute difference,
which is non-negative. -/
theorem C7_scorer_unavailable_iff_empty (beta_prediction helix_prediction : List ℚ)
    (idx : List (ℤ × ℤ)) :
    (calc_secondary_structure_switch_difference_and_score beta_prediction helix_prediction idx
        = (-1, -1) ↔ idx = []) ∧
    (idx ≠ [] →
      calc_secondary_structure_switch_difference_and_score beta_prediction helix_prediction idx
          = (calc_average_score beta_prediction idx + calc_average_score helix_prediction idx,
            |calc_average_score beta_prediction idx - calc_average_score helix_prediction idx|) ∧
      calc_average_score beta_prediction idx =
        (idx.map (fun s => mean (sliceInc beta_prediction s.1 s.2))).sum / idx.length ∧
      calc_average_score helix_prediction idx =
        (idx.map (fun s => mean (sliceInc helix_prediction s.1 s.2))).sum / idx.length ∧
      0 ≤ (calc_secondary_structure_switch_difference_and_score beta_prediction
            helix_prediction idx).2) := by
  have hlen : idx ≠ [] → idx.length ≠ 0 := fun h => by simpa [List.length_eq_zero] using h
  constructor
  · constructor
    · intro h
      by_contra hne
      unfold calc_secondary_structure_switch_difference_and_score at h
      rw [if_neg (hlen hne)] at h
      have h2 := congrArg Prod.snd h
      simp only at h2
      have h3 := abs_nonneg
        (calc_average_score beta_prediction idx - calc_average_score helix_prediction idx)
      rw [h2] at h3
      norm_num at h3
    · rintro rfl; rfl
  · intro hne
    unfold calc_secondary_structure_switch_difference_and_score
    rw [if_neg (hlen hne)]
    refine ⟨rfl, ?_, ?_, ?_⟩
    · unfold calc_average_score
      rw [if_neg (hlen hne)]
      unfold mean
      rw [List.length_map]
    · unfold calc_average_score
      rw [if_neg (hlen hne)]
      unfold mean
      rw [List.length_map]
    · exact abs_nonneg _

/-- C8: a row is flagged SSW-positive iff its "SSW prediction" flag is 1 and
its hydrophobicity is at least `ssw_avg_H`, the mean hydrophobicity over the
rows not already flagged; a failing row receives the sentinel `(-1, -1)` and
a passing row's score is hydrophobicity + full-length beta moment +
full-length helix moment + SSW score. -/
theorem C8_classifier_ssw_rule (batch : List PeptideRow) (r : PeptideRow)
    (hr : r ∈ batch) (_hne : ∃ r0 ∈ batch, r0.sswPrediction ≠ 1) :
    classifyRow batch r ∈ perform_fibril_formation_prediction batch ∧
    ((classifyRow batch r).1.1 = 1 ↔
      r.sswPrediction = 1 ∧ ssw_avg_H batch ≤ r.hydrophobicity) ∧
    (¬ (r.sswPrediction = 1 ∧ ssw_avg_H batch ≤ r.hydrophobicity) →
      (classifyRow batch r).1 = (-1, -1)) ∧
    ((r.sswPrediction = 1 ∧ ssw_avg_H batch ≤ r.hydrophobicity) →
      (classifyRow batch r).1 =
        (1, r.hydrophobicity + r.betaFullUH + r.fullUH + r.sswScore)) ∧
    ssw_avg_H batch =
      ((batch.filter (fun q => decide (q.sswPrediction ≠ 1))).map
          (fun q => q.hydrophobicity)).sum /
        (batch.filter (fun q => decide (q.sswPrediction ≠ 1))).length := by
  refine ⟨List.mem_map_of_mem _ hr, ?_, ?_, ?_, ?_⟩
  · by_cases hc : r.sswPrediction = 1 ∧ ssw_avg_H batch ≤ r.hydrophobicity
    · simp [classifyRow, hc]
    · simp only [classifyRow, if_neg hc]
      constructor
      · intro h; norm_num at h
      · intro h; exact absurd h hc
  · intro hc
    simp [classifyRow, hc]
  · intro hc
    simp [classifyRow, hc]
  · unfold ssw_avg_H mean
    rw [List.length_map]

/-- C9: `hydrophobic_moment` on a sequence of table residues fails exactly on
the empty sequence; otherwise it returns
`sqrt(sum_cos^2 + sum_sin^2) / length`, which is non-negative. -/
theorem C9_hydrophobic_moment (seq : List Char) (angle : ℝ)
    (hk : ∀ c ∈ seq, (Fauchere_Pliska c).isSome) :
    (hydrophobic_moment seq angle = none ↔ seq = []) ∧
    (seq ≠ [] → ∃ r : ℝ, hydrophobic_moment seq angle = some r ∧
      r = Real.sqrt ((momentSums seq angle).1 ^ 2 + (momentSums seq angle).2 ^ 2) /
        (seq.length : ℝ) ∧ 0 ≤ r) := by
  have hall : seq.all (fun c => (Fauchere_Pliska c).isSome) = true :=
    List.all_eq_true.mpr (fun c hc => hk c hc)
  have hval : seq.length ≠ 0 → hydrophobic_moment seq angle =
      some (Real.sqrt ((momentSums seq angle).1 ^ 2 + (momentSums seq angle).2 ^ 2) /
        (seq.length : ℝ)) := by
    intro hlen
    unfold hydrophobic_moment
    rw [if_neg hlen, if_neg (by rw [hall]; simp)]
  constructor
  · constructor
    · intro h
      by_contra hne
      have hlen : seq.length ≠ 0 := by simpa [List.length_eq_zero] using hne
      rw [hval hlen] at h
      exact Option.some_ne_none _ h
    · rintro rfl; rfl
  · intro hne
    have hlen : seq.length ≠ 0 := by simpa [List.length_eq_zero] using hne
    exact ⟨_, hval hlen, rfl, div_nonneg (Real.sqrt_nonneg _) (Nat.cast_nonneg _)⟩

/-- C3 (amended): the direct-acceptance test equals the OR-gate of mean and
median taken over the scores at positions `start .. end - 1` — the
candidate's last residue is excluded from both statistics — and an accepted
candidate `[start, end]` is emitted as the next segment. -/
theorem C3_amended_or_gate :
    (∀ (p : List ℚ) (minScore : ℚ) (s e : ℕ), e ≤ p.length →
      (good_segment p minScore s e ↔ acceptedDirectlySpec p minScore s e)) ∧
    (∀ (p : List ℚ) (minScore : ℚ) (fuel i : ℕ), i < p.length → 0 < p.getD i 0 →
      good_segment p minScore i (candidateEnd p i) →
      getSegmentsAux p minScore (fuel + 1) i =
        ((i : ℤ), (candidateEnd p i : ℤ)) ::
          getSegmentsAux p minScore fuel (innerNext p i)) := by
  constructor
  · intro p ms s e he
    unfold good_segment acceptedDirectlySpec
    rw [pySlice_eq_scoresBeforeEnd p s e he]
  · intro p ms fuel i h1 h2 h3
    simp only [getSegmentsAux]
    rw [if_pos h1, if_pos h2, if_pos h3]

/-- C4 (amended): the sub-segment rescue considers exactly the sub-segments
of length at least `MIN_LENGTH` lying inside `[start, end - 1]` (a window
touching the candidate's last residue is never tried), its result either is
the sentinel triple or records a considered window `(a, a + l)` — one past
the scored window's last residue — scoring the maximum of its own mean and
median, the recorded score dominates every considered window, and when the
result passes the sentinel and threshold guards the pair `(a, a + l)` is
appended. -/
theorem C4_amended_rescue :
    (∀ (p : List ℚ) (s e : ℕ),
      check_subsegment p s e = (-1, -1, -1) ∨
        ∃ a l, rescueWindow s e a l ∧
          check_subsegment p s e = ((a : ℤ), (a : ℤ) + (l : ℤ), windowScore p a l)) ∧
    (∀ (p : List ℚ) (s e a l : ℕ), rescueWindow s e a l →
      windowScore p a l ≤ (check_subsegment p s e).2.2) ∧
    (∀ (p : List ℚ) (minScore : ℚ) (fuel i : ℕ), i < p.length → 0 < p.getD i 0 →
      ¬ good_segment p minScore i (candidateEnd p i) →
      MIN_LENGTH ≤ candidateEnd p i - i + 1 →
      (check_subsegment p i (candidateEnd p i)).2.1 ≠ -1 →
      (check_subsegment p i (candidateEnd p i)).1 ≠ -1 →
      minScore ≤ (check_subsegment p i (candidateEnd p i)).2.2 →
      getSegmentsAux p minScore (fuel + 1) i =
        ((check_subsegment p i (candidateEnd p i)).1,
          (check_subsegment p i (candidateEnd p i)).2.1) ::
          getSegmentsAux p minScore fuel (innerNext p i)) := by
  refine ⟨?_, ?_, ?_⟩
  · intro p s e
    rcases (check_subsegment_spec p s e).1 with h | ⟨a, l, hl, hs, he, h⟩
    · exact Or.inl h
    · refine Or.inr ⟨a, l, ⟨hl, hs, he⟩, ?_⟩
      rw [h]
      unfold windowScore
      rw [max_comm]
  · intro p s e a l hw
    have h := (check_subsegment_spec p s e).2 a l hw.1 hw.2.1 hw.2.2
    unfold windowScore
    rw [max_comm]
    exact h
  · intro p ms fuel i h1 h2 h3 h4 h5 h6 h7
    simp only [getSegmentsAux]
    rw [if_pos h1, if_pos h2, if_neg h3, if_pos h4, if_pos ⟨h5, h6, h7⟩]

/-! ## Concrete evaluations

The rational operations of the standard library are `@[irreducible]`; they
are made reducible in this section so that `decide` can evaluate the
embedded algorithms on the concrete inputs of the claims. -/

section Evaluation

set_option allowUnsafeReducibility true

attribute [local reducible] Rat.add Rat.mul Rat.inv Rat.sub Rat.ofScientific Rat.normalize

set_option maxRecDepth 40000

/-- C1 (counterexample): on the spec's end-to-end scenario tracks the merged
output is the single segment `(7, 11)` (0-indexed; `[8,12]` 1-indexed), not
the claimed `[6,11]` (0-indexed `(5, 10)`). -/
theorem C1_counterexample :
    find_secondary_structure_switch_segments
        (get_secondary_structure_segments
          [0, 0, 0, 0, 0, 0, 0, 1, 1, 1, 1, 1, 0, 0, 0, 0, 0, 0, 0, 0] MIN_TANGO_SCORE)
        (get_secondary_structure_segments
          [0, 0, 0, 0, 0, 8, 8, 8, 8, 8, 8, 0, 0, 0, 0, 0, 0, 0, 0, 0] MIN_JPRED_SCORE)
      = [((7 : ℤ), (11 : ℤ))] ∧
    ([((7 : ℤ), (11 : ℤ))] : List (ℤ × ℤ)) ≠ [((5 : ℤ), (10 : ℤ))] := by decide

/-- C1 (amended): segment extraction on the scenario tracks yields the helix
segment `(5, 10)` (`[6,11]` 1-indexed) and the beta segment `(7, 11)`
(`[8,12]` 1-indexed), and merging yields exactly the beta segment's full
span `(7, 11)` (`[8,12]` 1-indexed). -/
theorem C1_amended_scenario :
    get_secondary_structure_segments
        [0, 0, 0, 0, 0, 8, 8, 8, 8, 8, 8, 0, 0, 0, 0, 0, 0, 0, 0, 0] MIN_JPRED_SCORE
      = [((5 : ℤ), (10 : ℤ))] ∧
    get_secondary_structure_segments
        [0, 0, 0, 0, 0, 0, 0, 1, 1, 1, 1, 1, 0, 0, 0, 0, 0, 0, 0, 0] MIN_TANGO_SCORE
      = [((7 : ℤ), (11 : ℤ))] ∧
    ([((5 : ℤ), (10 : ℤ))] : List (ℤ × ℤ)).map (fun s => (s.1 + 1, s.2 + 1))
      = [((6 : ℤ), (11 : ℤ))] ∧
    ([((7 : ℤ), (11 : ℤ))] : List (ℤ × ℤ)).map (fun s => (s.1 + 1, s.2 + 1))
      = [((8 : ℤ), (12 : ℤ))] ∧
    find_secondary_structure_switch_segments [((7 : ℤ), (11 : ℤ))] [((5 : ℤ), (10 : ℤ))]
      = [((7 : ℤ), (11 : ℤ))] := by decide

/-- C2 (counterexample): for helix `[5,20]` and beta `[10,15]` the merger
emits the beta segment's full span `[10,15]`, not the claimed `[5,15]`. -/
theorem C2_counterexample :
    find_secondary_structure_switch_segments [((10 : ℤ), (15 : ℤ))] [((5 : ℤ), (20 : ℤ))]
      = [((10 : ℤ), (15 : ℤ))] ∧
    ([((10 : ℤ), (15 : ℤ))] : List (ℤ × ℤ)) ≠ [((5 : ℤ), (15 : ℤ))] := by decide

/-- C2 (amended): identical segments merge to that segment with both cursors
consumed; for beta strictly inside helix the emitted span is the beta
segment's full span `[10,15]`. -/
theorem C2_amended_merge_asymmetry :
    find_secondary_structure_switch_segments [((5 : ℤ), (20 : ℤ))] [((5 : ℤ), (20 : ℤ))]
      = [((5 : ℤ), (20 : ℤ))] ∧
    find_secondary_structure_switch_segments [((10 : ℤ), (15 : ℤ))] [((5 : ℤ), (20 : ℤ))]
      = [((10 : ℤ), (15 : ℤ))] := by decide

/-- C3 (counterexample): on the track `[1,1,7,7,100]` with threshold 7 the
scan's candidate is `[0,4]` of trimmed length 5 and the mean over the full
inclusive span reaches the threshold (`116/5 ≥ 7`), yet the extractor
returns no segment at all. -/
theorem C3_counterexample :
    get_secondary_structure_segments [1, 1, 7, 7, 100] 7 = [] ∧
    candidateEnd [1, 1, 7, 7, 100] 0 = 4 ∧
    MIN_LENGTH ≤ 4 - 0 + 1 ∧
    (7 : ℚ) ≤ mean (pySlice [1, 1, 7, 7, 100] 0 (4 + 1)) := by decide

/-- C4 (counterexample): on `[1,1,1,1,1,1,1,1,1,50]` with threshold 7 the
candidate is `[0,9]` (length 10 ≥ `MIN_LENGTH`) and fails both the mean and
the median check over the half-open span `[0,9)` *and* over the inclusive
span `[0,9]`, so the rescue applies under either reading.  The sub-segment
`[5,9]` — window start 5, length 5, ending at the candidate's last residue —
scores `max(mean, median) = 54/5 ≥ 7`, so per the claim the best considered
score is ≥ T and the best sub-segment must be appended; but the code never
examines a window containing the last residue, its search result is
`(0, 5, 1)` with score `1 < 7`, and it appends nothing at all: the extractor
returns the empty list. -/
theorem C4_counterexample :
    get_secondary_structure_segments [1, 1, 1, 1, 1, 1, 1, 1, 1, 50] 7 = [] ∧
    candidateEnd [1, 1, 1, 1, 1, 1, 1, 1, 1, 50] 0 = 9 ∧
    MIN_LENGTH ≤ 9 - 0 + 1 ∧
    ¬ ((7 : ℚ) ≤ mean (pySlice [1, 1, 1, 1, 1, 1, 1, 1, 1, 50] 0 9)) ∧
    ¬ ((7 : ℚ) ≤ median (pySlice [1, 1, 1, 1, 1, 1, 1, 1, 1, 50] 0 9)) ∧
    ¬ ((7 : ℚ) ≤ mean (pySlice [1, 1, 1, 1, 1, 1, 1, 1, 1, 50] 0 10)) ∧
    ¬ ((7 : ℚ) ≤ median (pySlice [1, 1, 1, 1, 1, 1, 1, 1, 1, 50] 0 10)) ∧
    (7 : ℚ) ≤ windowScore [1, 1, 1, 1, 1, 1, 1, 1, 1, 50] 5 5 ∧
    check_subsegment [1, 1, 1, 1, 1, 1, 1, 1, 1, 50] 0 9 = (0, 5, 1) := by decide

/-- C10: `ff_helix_percent` returns 0.0 for sequences shorter than the
window width and for sequences without a qualifying window — in particular
for twenty glycines — and otherwise returns the rounded percentage of
residues covered by qualifying windows. -/
theorem C10_ff_helix_percent :
    (∀ seq : List Char, seq.length < 6 → ff_helix_percent seq = 0) ∧
    (∀ seq : List Char,
      (∀ i, windowMean (hprop (pyStrip (seq.map Char.toUpper))) 6 i < 1) →
      ff_helix_percent seq = 0) ∧
    ff_helix_percent (List.replicate 20 'G') = 0 ∧
    (∀ seq : List Char, ¬ (pyStrip (seq.map Char.toUpper)).length < 6 →
      coreCount (hprop (pyStrip (seq.map Char.toUpper))) 6 1
        (pyStrip (seq.map Char.toUpper)).length ≠ 0 →
      ff_helix_percent seq =
        round1 (100 * (coreCount (hprop (pyStrip (seq.map Char.toUpper))) 6 1
          (pyStrip (seq.map Char.toUpper)).length : ℚ) /
          (pyStrip (seq.map Char.toUpper)).length)) :=
  ⟨ff_helix_percent_short, ff_helix_percent_no_window, by decide, ff_helix_percent_formula⟩

/-! ### Witnesses -/

/-- Witness for C3: concrete instances of both parts of the amended OR-gate
theorem. -/
theorem C3_amended_or_gate_witness :
    (good_segment [1, 1, 7, 7, 100] 7 0 4 ↔ acceptedDirectlySpec [1, 1, 7, 7, 100] 7 0 4) ∧
    getSegmentsAux [1, 1, 1, 1, 1] 1 5 0 =
      ((0 : ℤ), (candidateEnd [1, 1, 1, 1, 1] 0 : ℤ)) ::
        getSegmentsAux [1, 1, 1, 1, 1] 1 4 (innerNext [1, 1, 1, 1, 1] 0) :=
  ⟨C3_amended_or_gate.1 [1, 1, 7, 7, 100] 7 0 4 (by decide),
   C3_amended_or_gate.2 [1, 1, 1, 1, 1] 1 4 0 (by decide) (by decide) (by decide)⟩

/-- Witness for C4: the dominance part at the concrete window `(2, 5)` and
the emission part on the counterexample track. -/
theorem C4_amended_rescue_witness :
    windowScore [1, 1, 1, 1, 7, 7, 7, 7, 7] 2 5 ≤
      (check_subsegment [1, 1, 1, 1, 7, 7, 7, 7, 7] 0 8).2.2 ∧
    getSegmentsAux [1, 1, 1, 1, 7, 7, 7, 7, 7] 7 9 0 =
      ((check_subsegment [1, 1, 1, 1, 7, 7, 7, 7, 7] 0
          (candidateEnd [1, 1, 1, 1, 7, 7, 7, 7, 7] 0)).1,
        (check_subsegment [1, 1, 1, 1, 7, 7, 7, 7, 7] 0
          (candidateEnd [1, 1, 1, 1, 7, 7, 7, 7, 7] 0)).2.1) ::
        getSegmentsAux [1, 1, 1, 1, 7, 7, 7, 7, 7] 7 8
          (innerNext [1, 1, 1, 1, 7, 7, 7, 7, 7] 0) :=
  ⟨C4_amended_rescue.2.1 [1, 1, 1, 1, 7, 7, 7, 7, 7] 0 8 2 5 ⟨by decide, by decide, by decide⟩,
   C4_amended_rescue.2.2 [1, 1, 1, 1, 7, 7, 7, 7, 7] 7 8 0 (by decide) (by decide)
     (by decide) (by decide) (by decide) (by decide) (by decide)⟩

/-- Witness for C5 at a concrete overlapping pair. -/
theorem C5_merge_emits_input_segments_witness :
    ((2 : ℤ), (7 : ℤ)) ∈ [((0 : ℤ), (9 : ℤ))] ∨ ((2 : ℤ), (7 : ℤ)) ∈ [((2 : ℤ), (7 : ℤ))] :=
  C5_merge_emits_input_segments [((2 : ℤ), (7 : ℤ))] [((0 : ℤ), (9 : ℤ))]
    ((2 : ℤ), (7 : ℤ)) (by decide)

/-- Witness for C6: the membership part at a concrete extracted segment. -/
theorem C6_extraction_invariants_witness :
    0 ≤ ((0 : ℤ), (4 : ℤ)).1 ∧ ((0 : ℤ), (4 : ℤ)).1 ≤ ((0 : ℤ), (4 : ℤ)).2 ∧
      (MIN_LENGTH : ℤ) ≤ ((0 : ℤ), (4 : ℤ)).2 - ((0 : ℤ), (4 : ℤ)).1 + 1 :=
  (C6_extraction_invariants [1, 1, 1, 1, 1] 1).2.2.1 ((0 : ℤ), (4 : ℤ)) (by decide)

/-- Witness for C7: the non-empty branch at a concrete merged list. -/
theorem C7_scorer_unavailable_iff_empty_witness :
    calc_secondary_structure_switch_difference_and_score [1, 2] [3, 4] [((0 : ℤ), (1 : ℤ))]
        = (calc_average_score [1, 2] [((0 : ℤ), (1 : ℤ))] +
            calc_average_score [3, 4] [((0 : ℤ), (1 : ℤ))],
          |calc_average_score [1, 2] [((0 : ℤ), (1 : ℤ))] -
            calc_average_score [3, 4] [((0 : ℤ), (1 : ℤ))]|) ∧
    calc_average_score [1, 2] [((0 : ℤ), (1 : ℤ))] =
      ([((0 : ℤ), (1 : ℤ))].map (fun s => mean (sliceInc [1, 2] s.1 s.2))).sum /
        ([((0 : ℤ), (1 : ℤ))] : List (ℤ × ℤ)).length ∧
    calc_average_score [3, 4] [((0 : ℤ), (1 : ℤ))] =
      ([((0 : ℤ), (1 : ℤ))].map (fun s => mean (sliceInc [3, 4] s.1 s.2))).sum /
        ([((0 : ℤ), (1 : ℤ))] : List (ℤ × ℤ)).length ∧
    0 ≤ (calc_secondary_structure_switch_difference_and_score [1, 2] [3, 4]
          [((0 : ℤ), (1 : ℤ))]).2 :=
  (C7_scorer_unavailable_iff_empty [1, 2] [3, 4] [((0 : ℤ), (1 : ℤ))]).2 (by decide)

/-- Witness for C8 on a concrete two-row batch whose second row is not
SSW-flagged. -/
theorem C8_classifier_ssw_rule_witness :
    classifyRow [rowA, rowB] rowA ∈ perform_fibril_formation_prediction [rowA, rowB] ∧
    ((classifyRow [rowA, rowB] rowA).1.1 = 1 ↔
      rowA.sswPrediction = 1 ∧ ssw_avg_H [rowA, rowB] ≤ rowA.hydrophobicity) ∧
    (¬ (rowA.sswPrediction = 1 ∧ ssw_avg_H [rowA, rowB] ≤ rowA.hydrophobicity) →
      (classifyRow [rowA, rowB] rowA).1 = (-1, -1)) ∧
    ((rowA.sswPrediction = 1 ∧ ssw_avg_H [rowA, rowB] ≤ rowA.hydrophobicity) →
      (classifyRow [rowA, rowB] rowA).1 =
        (1, rowA.hydrophobicity + rowA.betaFullUH + rowA.fullUH + rowA.sswScore)) ∧
    ssw_avg_H [rowA, rowB] =
      (([rowA, rowB].filter (fun q => decide (q.sswPrediction ≠ 1))).map
          (fun q => q.hydrophobicity)).sum /
        ([rowA, rowB].filter (fun q => decide (q.sswPrediction ≠ 1))).length :=
  C8_classifier_ssw_rule [rowA, rowB] rowA (by decide)
    ⟨rowB, by decide, by decide⟩

/-- Witness for C9 at the two-residue sequence `AG` and the default helix
angle. -/
theorem C9_hydrophobic_moment_witness :
    (hydrophobic_moment ['A', 'G'] 100 = none ↔ (['A', 'G'] : List Char) = []) ∧
    (∃ r : ℝ, hydrophobic_moment ['A', 'G'] 100 = some r ∧
      r = Real.sqrt ((momentSums ['A', 'G'] 100).1 ^ 2 + (momentSums ['A', 'G'] 100).2 ^ 2) /
        ((['A', 'G'] : List Char).length : ℝ) ∧ 0 ≤ r) :=
  ⟨(C9_hydrophobic_moment ['A', 'G'] 100 (by decide)).1,
   (C9_hydrophobic_moment ['A', 'G'] 100 (by decide)).2 (by decide)⟩

/-- Witness for C10: the short-sequence branch and the formula branch at
concrete sequences. -/
theorem C10_ff_helix_percent_witness :
    ff_helix_percent ['A'] = 0 ∧
    ff_helix_percent ['A', 'A', 'A', 'A', 'A', 'A', 'A'] =
      round1 (100 * (coreCount
        (hprop (pyStrip ((['A', 'A', 'A', 'A', 'A', 'A', 'A'] : List Char).map Char.toUpper)))
        6 1 (pyStrip ((['A', 'A', 'A', 'A', 'A', 'A', 'A'] : List Char).map Char.toUpper)).length
        : ℚ) /
        (pyStrip ((['A', 'A', 'A', 'A', 'A', 'A', 'A'] : List Char).map Char.toUpper)).length) :=
  ⟨C10_ff_helix_percent.1 ['A'] (by decide),
   C10_ff_helix_percent.2.2.2 ['A', 'A', 'A', 'A', 'A', 'A', 'A'] (by decide) (by decide)⟩

end Evaluation

end PeptidePred

